import Mathlib

/-!
Verification of the timereg-app-pwa time-tracking application.

This file gives a shallow embedding of the pure core of the app
(`src/src/App.tsx` and the unnamed source file): clock-time arithmetic,
calendar/ISO-week computation, day/week filtering, import normalization,
the timer state machine and manual-entry validation, and the
Entry/DbRow mappings used for cloud storage.

Modelling conventions:
* JavaScript strings are modelled as `List Char` (`JsStr`); `str` injects
  Lean string literals.  JS string comparison (`<=` on code units) is
  `jsLeB`; `String.prototype.trim` is `jsTrim` (ASCII whitespace).
* JS numbers are modelled as `Int` (all values in the app are integers);
  `NaN` for malformed numeric strings is modelled as `0`, which the code
  treats identically in every guard exercised here (both are falsy).
* The environment timezone is fixed to UTC (getTimezoneOffset() = 0), so
  local and UTC accessors coincide; `new Date(<ms>)` clock fields are read
  with `/`/`%` arithmetic on the millisecond value.
* The ECMAScript proleptic-Gregorian calendar (MakeDay / YearFromTime /
  toISOString) is modelled by `daysFromCivil` / `civilFromDays`, proved
  mutually consistent in `daysFromCivil_civilFromDays`.  `setDate(n)` on a
  date with year `y`, month `m` is `daysFromCivil y m 1 + (n - 1)`; for an
  unmutated `Date` built from known components, `getDate`/`getFullYear`
  return those components.  Formatting is valid for years 0..9999 (the
  app's `YYYY-MM-DD` range).
-/

namespace Timereg

/-- JavaScript strings as lists of UTF-16-ish code points. -/
abbrev JsStr := List Char

/-- Inject a Lean string literal as a `JsStr`. -/
def str (s : String) : JsStr := s.data

/-- ASCII digit test, modelling the regex class `\d`. -/
def isDig (c : Char) : Bool := 48 ≤ c.toNat && c.toNat ≤ 57

/-- Whitespace recognised by `String.prototype.trim` (ASCII subset). -/
def jsWhite (c : Char) : Bool :=
  c.toNat = 32 || c.toNat = 9 || c.toNat = 10 || c.toNat = 13

/-- Model of `String.prototype.trim`. -/
def jsTrim (s : JsStr) : JsStr :=
  ((s.dropWhile jsWhite).reverse.dropWhile jsWhite).reverse

/-- Strict lexicographic `<` on JS strings (code-unit order). -/
def jsLtB : JsStr → JsStr → Bool
  | _, [] => false
  | [], _ :: _ => true
  | a :: as, b :: bs => if a = b then jsLtB as bs else decide (a < b)

/-- Lexicographic `<=` on JS strings, as used by `e.date >= startISO` etc. -/
def jsLeB (s t : JsStr) : Bool := !jsLtB t s

/-- Numeric value of a digit character. -/
def digitVal (c : Char) : Nat := c.toNat - 48

/-- Value of a digit string (used for `Number(..)` on the digit strings the
app produces). -/
def natOfDigits (s : JsStr) : Nat := s.foldl (fun acc c => 10 * acc + digitVal c) 0

/-- Model of JS `Number(s)` restricted to the inputs the app feeds it:
digit strings evaluate to their value, the empty string to 0, and anything
else (JS `NaN`) is modelled as 0 — the code only ever tests these values
for falsiness, where `NaN` and `0` behave identically. -/
def toNumber (s : JsStr) : Int :=
  if s ≠ [] ∧ s.all isDig then (natOfDigits s : Int) else 0

/-- The digit character for `n < 10`. -/
def digitChar (n : Nat) : Char := Char.ofNat (48 + n)

/-- Model of `String(n).padStart(2, "0")` for `n < 100`. -/
def pad2 (n : Nat) : JsStr := [digitChar (n / 10 % 10), digitChar (n % 10)]

/-- Four-digit zero-padded rendering of `n < 10000` (year field of
`toISOString`). -/
def pad4 (n : Nat) : JsStr :=
  [digitChar (n / 1000 % 10), digitChar (n / 100 % 10), digitChar (n / 10 % 10),
    digitChar (n % 10)]

/-- Model of `s.padStart(2, "0")` on a string of digits. -/
def padStart2 (s : JsStr) : JsStr :=
  if s.length = 0 then ['0', '0'] else if s.length = 1 then '0' :: s else s

/-- Days since 1970-01-01 of a proleptic-Gregorian civil date (model of
ECMAScript `MakeDay`), after Howard Hinnant's `days_from_civil`, with the
two branches replaced by equivalent modular arithmetic: `(14 - m) / 12` is
the indicator of `m ≤ 2` for `1 ≤ m ≤ 12`, and `(m + 9) % 12` is the
March-based month index. -/
def daysFromCivil (y m d : Int) : Int :=
  let yy : Int := y - (14 - m) / 12
  let era : Int := yy / 400
  let yoe : Int := yy - era * 400
  let mp : Int := (m + 9) % 12
  let doy : Int := (153 * mp + 2) / 5 + d - 1
  let doe : Int := yoe * 365 + yoe / 4 - yoe / 100 + doy
  era * 146097 + doe - 719468

/-- Civil date of a day-of-era `doe ∈ [0, 146096]`, returning
(year-of-era adjusted for the Jan/Feb shift, month, day).  The year of era
is extracted with the exact-quotient forms `(4·doe+3)/146097` (century) and
`(4·doc+3)/1461` (year of century). -/
def civilOfEra (doe : Int) : Int × Int × Int :=
  let c : Int := (4 * doe + 3) / 146097
  let doc : Int := doe - 36524 * c
  let yoc : Int := (4 * doc + 3) / 1461
  let doy : Int := (4 * doc + 3) % 1461 / 4
  let yoe : Int := 100 * c + yoc
  let mp : Int := (5 * doy + 2) / 153
  let d : Int := doy - (153 * mp + 2) / 5 + 1
  let m : Int := (mp + 2) % 12 + 1
  (yoe + mp / 10, m, d)

/-- Civil date (year, month, day) of a day count since 1970-01-01 (model of
ECMAScript `YearFromTime`/`MonthFromTime`/`DateFromTime`). -/
def civilFromDays (z : Int) : Int × Int × Int :=
  let z' : Int := z + 719468
  let era : Int := z' / 146097
  let p := civilOfEra (z' - era * 146097)
  (p.1 + era * 400, p.2.1, p.2.2)

/-- Day of week of a day count, with 0 = Sunday (model of `Date.getDay`;
1970-01-01 was a Thursday). -/
def jsGetDay (z : Int) : Int := (z + 4) % 7

/-- Number of days in a month of the proleptic Gregorian calendar. -/
def daysInMonth (y m : Int) : Int :=
  if m = 2 then (if (y % 4 = 0 ∧ y % 100 ≠ 0) ∨ y % 400 = 0 then 29 else 28)
  else if m = 4 ∨ m = 6 ∨ m = 9 ∨ m = 11 then 30 else 31

/-- Render a civil date as zero-padded `YYYY-MM-DD` (valid for years
0..9999). -/
def formatCivil (y m d : Int) : JsStr :=
  pad4 y.toNat ++ '-' :: (pad2 m.toNat ++ '-' :: pad2 d.toNat)

/-- Model of `date.toISOString().slice(0, 10)` on a day count. -/
def toISO (z : Int) : JsStr :=
  formatCivil (civilFromDays z).1 (civilFromDays z).2.1 (civilFromDays z).2.2

/-- Strict parse of a `YYYY-MM-DD` string with ECMAScript range validation
(month 1..12, day within the month); any other input makes `new Date(s)`
an Invalid Date. -/
def parseISO (s : JsStr) : Option (Int × Int × Int) :=
  match s with
  | [y1, y2, y3, y4, s1, m1, m2, s2, d1, d2] =>
    if isDig y1 && isDig y2 && isDig y3 && isDig y4 && s1 = '-' &&
        isDig m1 && isDig m2 && s2 = '-' && isDig d1 && isDig d2 then
      let y : Int := (natOfDigits [y1, y2, y3, y4] : Int)
      let m : Int := (natOfDigits [m1, m2] : Int)
      let d : Int := (natOfDigits [d1, d2] : Int)
      if 1 ≤ m ∧ m ≤ 12 ∧ 1 ≤ d ∧ d ≤ daysInMonth y m then some (y, m, d) else none
    else none
  | _ => none

/-- Model of `diffMinutes(start, end)`: split both strings on `":"`, read
the first two components as numbers, and return end minus start in
minutes.  (A missing second component yields JS `NaN`; per the `toNumber`
convention it is modelled as 0 — the app only calls this on `HH:MM`
strings.) -/
def diffMinutes (s e : JsStr) : Int :=
  let sp := s.splitOn ':'
  let ep := e.splitOn ':'
  let sh := toNumber (sp.getD 0 [])
  let sm := toNumber (sp.getD 1 [])
  let eh := toNumber (ep.getD 0 [])
  let em := toNumber (ep.getD 1 [])
  (eh * 60 + em) - (sh * 60 + sm)

/-- Model of `formatTime(new Date(ms))` at UTC: zero-padded `HH:MM` of the
instant's clock time. -/
def formatTime (tsMs : Nat) : JsStr :=
  pad2 (tsMs / 3600000 % 24) ++ ':' :: pad2 (tsMs / 60000 % 60)

/-- Model of `todayISO()` for current instant `nowMs` at UTC: the timezone
shift vanishes and the date is the civil date of the current day number. -/
def todayISO (nowMs : Nat) : JsStr := toISO ((nowMs : Int) / 86400000)

/-- Model of `Math.round(a / b)` for natural `a` and positive `b`
(round half up: `⌊a/b + 1/2⌋`). -/
def jsRoundDiv (a b : Nat) : Nat := (2 * a + b) / (2 * b)

/-- The `Entry` record.  Optional fields are `Option JsStr`: `none` is JS
`undefined`, `some []` an empty string. -/
structure Entry where
  id : JsStr
  date : JsStr
  project : JsStr
  activity : Option JsStr := none
  notes : Option JsStr := none
  start : Option JsStr := none
  end_ : Option JsStr := none
  minutes : Int
  createdAt : Int := 0
  userId : Option JsStr := none
deriving DecidableEq, Repr

/-- A partial field patch (`Partial<Entry>` as produced by the edit UI):
`none` means the field is absent from the patch. -/
structure Patch where
  date : Option JsStr := none
  project : Option JsStr := none
  activity : Option JsStr := none
  notes : Option JsStr := none
  start : Option JsStr := none
  end_ : Option JsStr := none
  minutes : Option Int := none
deriving DecidableEq, Repr

/-- Model of the spread merge `{ ...e, ...patch }`: every field present in
the patch overwrites the entry's field. -/
def applyPatch (e : Entry) (p : Patch) : Entry :=
  { id := e.id
    date := p.date.getD e.date
    project := p.project.getD e.project
    activity := match p.activity with | some v => some v | none => e.activity
    notes := match p.notes with | some v => some v | none => e.notes
    start := match p.start with | some v => some v | none => e.start
    end_ := match p.end_ with | some v => some v | none => e.end_
    minutes := p.minutes.getD e.minutes
    createdAt := e.createdAt
    userId := e.userId }

/-- Model of `updateEntry(id, patch)`'s state update:
`entries.map(e => e.id === id ? { ...e, ...patch } : e)`. -/
def updateEntry (entries : List Entry) (id : JsStr) (p : Patch) : List Entry :=
  entries.map fun e => if e.id = id then applyPatch e p else e

/-- JS truthiness of an optional string (`undefined` and `""` are falsy). -/
def truthy (o : Option JsStr) : Bool := !(o.getD []).isEmpty

/-- The seven single-field edits issued by the `TableEditable` inputs. -/
inductive Edit where
  | date (v : JsStr)
  | project (v : JsStr)
  | activity (v : JsStr)
  | notes (v : JsStr)
  | start (v : JsStr)
  | end_ (v : JsStr)
  | minutes (n : Int)
deriving DecidableEq, Repr

/-- The patch each `TableEditable` onChange handler passes to
`updateEntry`, built from the rendered entry `e`: the `start`/`end`
handlers bundle `minutes = diffMinutes(start, end)` whenever both fields
are non-empty, else leave `minutes` at `e.minutes`. -/
def editPatch (e : Entry) : Edit → Patch
  | .date v => { date := some v }
  | .project v => { project := some v }
  | .activity v => { activity := some v }
  | .notes v => { notes := some v }
  | .start v =>
    { start := some v
      minutes := some (if v ≠ [] ∧ truthy e.end_ then diffMinutes v (e.end_.getD [])
        else e.minutes) }
  | .end_ v =>
    { end_ := some v
      minutes := some (if truthy e.start ∧ v ≠ [] then diffMinutes (e.start.getD []) v
        else e.minutes) }
  | .minutes n => { minutes := some n }

/-- Whether an edit touches the `start` or `end` field. -/
def touchesTime : Edit → Bool
  | .start _ => true
  | .end_ _ => true
  | _ => false

/-- An edit event on the row rendering the entry with the given id: the
handler reads that entry from the current list, builds its patch, and
calls `updateEntry`.  (If no entry has the id there is no rendered row, so
no event.) -/
def tableEdit (entries : List Entry) (id : JsStr) (ed : Edit) : List Entry :=
  match entries.find? (fun e => e.id = id) with
  | none => entries
  | some e => updateEntry entries id (editPatch e ed)

/-- The running-timer record. -/
structure Timer where
  id : JsStr
  project : JsStr
  activity : Option JsStr := none
  notes : Option JsStr := none
  startTs : Nat
deriving DecidableEq, Repr

/-- The app state touched by the claims: entry list, project list, running
timer. -/
structure AppState where
  entries : List Entry
  projects : List JsStr
  running : Option Timer
deriving DecidableEq, Repr

/-- The completed entry `stopTimer` builds: dated today, clock times of the
timer's start and of now, minutes `max(1, round(elapsedMs / 60000))`. -/
def mkStopEntry (r : Timer) (nowMs : Nat) (newId : JsStr) (uid : Option JsStr) : Entry :=
  { id := newId
    date := todayISO nowMs
    project := r.project
    activity := some (r.activity.getD [])
    notes := some (r.notes.getD [])
    start := some (formatTime r.startTs)
    end_ := some (formatTime nowMs)
    minutes := (Nat.max 1 (jsRoundDiv (nowMs - r.startTs) 60000) : Nat)
    createdAt := nowMs
    userId := uid }

/-- Model of `stopTimer()`: a no-op without a running timer; otherwise the
new entry is put at the head of the entry list and the timer cleared.
`nowMs` is `Date.now()` at the stop instant, `newId` the generated id,
`uid` the session user. -/
def stopTimer (st : AppState) (nowMs : Nat) (newId : JsStr) (uid : Option JsStr) : AppState :=
  match st.running with
  | none => st
  | some r =>
    { st with entries := mkStopEntry r nowMs newId uid :: st.entries, running := none }

/-- Insert into a sorted list of strings (ascending). -/
def insertSorted (x : JsStr) : List JsStr → List JsStr
  | [] => [x]
  | y :: ys => if jsLeB x y then x :: y :: ys else y :: insertSorted x ys

/-- Model of `[...].sort((a, b) => a.localeCompare(b))` up to collation
order (code-unit order here; the claims never inspect the order). -/
def sortStrs : List JsStr → List JsStr
  | [] => []
  | x :: xs => insertSorted x (sortStrs xs)

/-- Model of `addProject(name)`: trim, ignore empty or already-present
names, else insert and re-sort. -/
def addProject (ps : List JsStr) (name : JsStr) : List JsStr :=
  let n := jsTrim name
  if n = [] then ps
  else if ps.contains n then ps
  else sortStrs (ps ++ [n])

/-- The data object `ManualEntryCard` passes to `addManualEntry`.
`minutes` holds `Number(data.minutes) || 0` (absent/NaN collapse to 0,
exactly as the code's guards treat them). -/
structure ManualData where
  date : JsStr := []
  project : JsStr := []
  activity : Option JsStr := none
  notes : Option JsStr := none
  start : Option JsStr := none
  end_ : Option JsStr := none
  minutes : Int := 0
deriving DecidableEq, Repr

/-- The entry committed by a successful `addManualEntry`. -/
def mkManualEntry (d : ManualData) (minutes : Int) (newId : JsStr) (date : JsStr)
    (nowMs : Nat) (uid : Option JsStr) : Entry :=
  { id := newId
    date := date
    project := jsTrim d.project
    activity := some ((d.activity.map jsTrim).getD [])
    notes := some ((d.notes.map jsTrim).getD [])
    start := some ((d.start.map jsTrim).getD [])
    end_ := some ((d.end_.map jsTrim).getD [])
    minutes := minutes
    createdAt := nowMs
    userId := uid }

/-- Model of `addManualEntry(data)`.  Returns the new state and the alert
message, if any; an alert aborts the operation with the state unchanged.
`today` is `todayISO()` at the call instant. -/
def addManualEntry (st : AppState) (d : ManualData) (newId : JsStr) (today : JsStr)
    (nowMs : Nat) (uid : Option JsStr) : AppState × Option JsStr :=
  let date := if d.date = [] then today else d.date
  let project := jsTrim d.project
  if project = [] then (st, some (str "Velg/skriv et arbeidssted"))
  else
    let start := d.start.map jsTrim
    let end_ := d.end_.map jsTrim
    if d.minutes = 0 ∧ truthy start ∧ truthy end_ then
      let m1 := diffMinutes (start.getD []) (end_.getD [])
      if m1 ≤ 0 then (st, some (str "Sluttid må være etter starttid"))
      else
        ({ entries := mkManualEntry d m1 newId date nowMs uid :: st.entries
           projects := addProject st.projects project
           running := st.running }, none)
    else if d.minutes = 0 then (st, some (str "Oppgi varighet eller start/slutt"))
    else
      ({ entries := mkManualEntry d d.minutes newId date nowMs uid :: st.entries
         projects := addProject st.projects project
         running := st.running }, none)

/-- The three view modes of the entry table. -/
inductive View where
  | day
  | week
  | all
deriving DecidableEq, Repr

/-- The Monday of the week containing day `z` (weekday offset
`(getDay + 6) % 7` days back). -/
def mondayOf (z : Int) : Int := z - (jsGetDay z + 6) % 7

/-- The start day of the week window `filterEntries` computes for a
reference date `(y, m, d)`: `start.setDate(base.getDate() - day)` where
`day = (base.getDay() + 6) % 7`. -/
def weekStart (y m d : Int) : Int :=
  daysFromCivil y m 1 + (d - (jsGetDay (daysFromCivil y m d) + 6) % 7) - 1

/-- The end day of that window: `end.setDate(start.getDate() + 6)` — note
`end` still carries the reference date's month, so the day-of-month
arithmetic is relative to month `m` even when the Monday fell in the
previous month. -/
def weekEnd (y m d : Int) : Int :=
  daysFromCivil y m 1 + ((civilFromDays (weekStart y m d)).2.2 + 6) - 1

/-- Model of `filterEntries(entries, view, baseDateISO)`.  The reference
string is parsed as `new Date(baseDateISO)` does; an invalid reference
would make the JS code throw on `toISOString`, and is modelled as
returning the list unchanged (all theorems assume a valid reference).
For `view = "day"` both window ends are the unmutated parsed date, whose
`toISOString` is its own components re-rendered. -/
def filterEntries (entries : List Entry) (view : View) (refISO : JsStr) : List Entry :=
  match view with
  | .all => entries
  | .day =>
    match parseISO refISO with
    | none => entries
    | some (y, m, d) =>
      let sISO := formatCivil y m d
      entries.filter fun e => jsLeB sISO e.date && jsLeB e.date sISO
  | .week =>
    match parseISO refISO with
    | none => entries
    | some (y, m, d) =>
      let sISO := toISO (weekStart y m d)
      let eISO := toISO (weekEnd y m d)
      entries.filter fun e => jsLeB sISO e.date && jsLeB e.date eISO

/-- The week-membership test the claim describes: the date lies in the
inclusive Monday-start 7-day window containing the reference date,
compared as zero-padded ISO strings. -/
def specWeekWindow (y m d : Int) (date : JsStr) : Bool :=
  let mon := mondayOf (daysFromCivil y m d)
  jsLeB (toISO mon) date && jsLeB date (toISO (mon + 6))

/-- Model of `getISOWeek(dateISO)` on the parsed components `(y, m, d)` of
a valid date string.  `target.setDate(target.getDate() - dayNr + 3)` is
day-of-month arithmetic in month `m`; `new Date(ty, 0, 4)` is January 4 of
the Thursday's year; the week index rounds the millisecond difference of
the two Thursdays over a week's milliseconds. -/
def getISOWeek (y m d : Int) : Int × Int :=
  let z := daysFromCivil y m d
  let dayNr := (jsGetDay z + 6) % 7
  let target := daysFromCivil y m 1 + (d - dayNr + 3) - 1
  let ty := (civilFromDays target).1
  let ft0 := daysFromCivil ty 1 4
  let fdn := (jsGetDay ft0 + 6) % 7
  let ft := daysFromCivil ty 1 1 + (4 - fdn + 3) - 1
  let week := 1 + (2 * ((target - ft) * 86400000) + 604800000) / 1209600000
  (ty, week)

/-- The ISO-8601 week definition, from the spec's words: take the Thursday
of the date's (Monday-started) week; the ISO week-year is that Thursday's
calendar year; week 1 is the week containing January 4 of that year, and
the week number counts Monday-to-Monday weeks from week 1. -/
def isoWeekSpec (z : Int) : Int × Int :=
  let thu := mondayOf z + 3
  let wy := (civilFromDays thu).1
  let jan4 := daysFromCivil wy 1 4
  (wy, 1 + (mondayOf z - mondayOf jan4) / 7)

/-- The separator class (dot, slash, or dash) of the `normalizeDate`
regex. -/
def isSep (c : Char) : Bool := c = '.' || c = '/' || c = '-'

/-- Exact match of the regex `^\d{4}-\d{2}-\d{2}$`. -/
def matchYMD : JsStr → Bool
  | [y1, y2, y3, y4, s1, m1, m2, s2, d1, d2] =>
    isDig y1 && isDig y2 && isDig y3 && isDig y4 && s1 = '-' &&
      isDig m1 && isDig m2 && s2 = '-' && isDig d1 && isDig d2
  | _ => false

/-- Capture groups of the regex `(\d{1,2}) sep (\d{1,2}) sep (\d{4})`
anchored at both ends, where each `sep` is independently a dot, slash, or
dash (day, month, year).  Since the separators are not digits, the
regex's greedy matching
is equivalent to taking the maximal digit runs and checking their
lengths; the two separators are matched independently. -/
def matchDMY (s : JsStr) : Option (JsStr × JsStr × JsStr) :=
  let dd := s.takeWhile isDig
  let r1 := s.dropWhile isDig
  if dd.length = 0 ∨ 2 < dd.length then none
  else
    match r1 with
    | c1 :: r2 =>
      if isSep c1 then
        let mm := r2.takeWhile isDig
        let r3 := r2.dropWhile isDig
        if mm.length = 0 ∨ 2 < mm.length then none
        else
          match r3 with
          | c2 :: r4 =>
            if isSep c2 then
              let yy := r4.takeWhile isDig
              let r5 := r4.dropWhile isDig
              if yy.length = 4 ∧ r5 = [] then some (dd, mm, yy) else none
            else none
          | [] => none
      else none
    | [] => none

/-- Model of `normalizeDate(v)`: empty input stays empty; otherwise the
trimmed input is returned unchanged when it matches `YYYY-MM-DD`,
reformatted to `YYYY-MM-DD` when it matches the day-month-year shape, and
mapped to the empty string otherwise. -/
def normalizeDate (v : JsStr) : JsStr :=
  if v = [] then []
  else
    let s := jsTrim v
    if matchYMD s then s
    else
      match matchDMY s with
      | some (dd, mm, yyyy) => yyyy ++ '-' :: (padStart2 mm ++ '-' :: padStart2 dd)
      | none => []

/-- Capture groups of `^(\d{1,2}):?(\d{2})$` (hours digits, minutes
digits).  Without a colon the regex splits a 3-digit run as 1+2 and a
4-digit run as 2+2 and rejects every other length. -/
def matchHM (s : JsStr) : Option (JsStr × JsStr) :=
  let ds := s.takeWhile isDig
  let r := s.dropWhile isDig
  match r with
  | ':' :: rest =>
    if (ds.length = 1 ∨ ds.length = 2) ∧ rest.length = 2 ∧ rest.all isDig then
      some (ds, rest)
    else none
  | [] =>
    if ds.length = 3 then some (ds.take 1, ds.drop 1)
    else if ds.length = 4 then some (ds.take 2, ds.drop 2)
    else none
  | _ => none

/-- Model of `normalizeTime(v)`: empty input stays empty; a trimmed input
matching the hours/minutes shape is zero-padded to `HH:MM` with no range
check; everything else maps to the empty string. -/
def normalizeTime (v : JsStr) : JsStr :=
  if v = [] then []
  else
    match matchHM (jsTrim v) with
    | some (hh, mm) => padStart2 hh ++ ':' :: padStart2 mm
    | none => []

/-- Whether a string is a well-formed 24-hour clock time `HH:MM`
(spec-side notion of a valid clock time). -/
def isValidClock : JsStr → Bool
  | [h1, h2, c, m1, m2] =>
    isDig h1 && isDig h2 && c = ':' && isDig m1 && isDig m2 &&
      10 * digitVal h1 + digitVal h2 < 24 && 10 * digitVal m1 + digitVal m2 < 60
  | _ => false

/-- An import row after header resolution: each field holds the value of
the first matching header spelling (`r.Dato || r.dato || r.Date`, etc.),
with `minutter` already coerced by `Number(... || 0)`. -/
structure RawRow where
  dato : JsStr := []
  arbeidssted : JsStr := []
  ordrenr : JsStr := []
  notater : JsStr := []
  start : JsStr := []
  slutt : JsStr := []
  minutter : Int := 0
deriving DecidableEq, Repr

/-- The entry produced for an accepted import row
(`Omit<Entry, "id" | "createdAt">`). -/
structure ImportEntry where
  date : JsStr
  project : JsStr
  activity : JsStr
  notes : JsStr
  start : JsStr
  end_ : JsStr
  minutes : Int
deriving DecidableEq, Repr

/-- The effective minutes of an import row: the supplied number, or — when
that is zero (or absent) and both normalized times are non-empty — the
derived `diffMinutes`. -/
def importMinutes (r : RawRow) : Int :=
  let start := normalizeTime r.start
  let end_ := normalizeTime r.slutt
  if r.minutter = 0 ∧ start ≠ [] ∧ end_ ≠ [] then diffMinutes start end_ else r.minutter

/-- Model of the import `toEntry(r)`: normalize the fields, then drop the
row (`null`) unless the date, the trimmed project, and the effective
minutes are all truthy. -/
def toEntry (r : RawRow) : Option ImportEntry :=
  let date := normalizeDate r.dato
  let project := jsTrim r.arbeidssted
  let minutes := importMinutes r
  if date = [] ∨ project = [] ∨ minutes = 0 then none
  else
    some { date := date
           project := project
           activity := jsTrim r.ordrenr
           notes := r.notater
           start := normalizeTime r.start
           end_ := normalizeTime r.slutt
           minutes := minutes }

/-- A row of the `time_entries` table.  `created_at` is an ISO timestamp
string in the source, modelled by its epoch-millisecond value (the two are
in bijection on the app's range). -/
structure DbRow where
  id : JsStr
  user_id : JsStr
  date : JsStr
  project : JsStr
  activity : Option JsStr := none
  notes : Option JsStr := none
  start : Option JsStr := none
  end_ : Option JsStr := none
  minutes : Int
  created_at : Int := 0
deriving DecidableEq, Repr

/-- Model of `x || null` on an optional string field. -/
def jsOrNull : Option JsStr → Option JsStr
  | none => none
  | some s => if s = [] then none else some s

/-- Model of `toDbRow(e, userId)`: empty optional fields become `null`,
clock times are extended to `HH:MM:SS`. -/
def toDbRow (e : Entry) (userId : JsStr) : DbRow :=
  { id := e.id
    user_id := userId
    date := e.date
    project := e.project
    activity := jsOrNull e.activity
    notes := jsOrNull e.notes
    start := (jsOrNull e.start).map (· ++ str ":00")
    end_ := (jsOrNull e.end_).map (· ++ str ":00")
    minutes := e.minutes
    created_at := e.createdAt }

/-- Model of the `loadCloudEntries` row-to-entry mapping: `null` optional
fields become empty strings, stored clock times are truncated back to
`HH:MM` via `.slice(0, 5)`. -/
def rowToEntry (row : DbRow) : Entry :=
  { id := row.id
    userId := some row.user_id
    date := row.date
    project := row.project
    activity := some (row.activity.getD [])
    notes := some (row.notes.getD [])
    start := some ((row.start.getD []).take 5)
    end_ := some ((row.end_.getD []).take 5)
    minutes := row.minutes
    createdAt := row.created_at }

/-- Spec-side day-month-year parse requiring the SAME separator in both
positions (the claim's `D.M.YYYY`, `D/M/YYYY`, `D-M-YYYY`), given here by
the two expected separator characters. -/
def parseDMYwith (c1 c2 : Char) (s : JsStr) : Option (JsStr × JsStr × JsStr) :=
  let dd := s.takeWhile isDig
  let r1 := s.dropWhile isDig
  if dd.length = 0 ∨ 2 < dd.length then none
  else
    match r1 with
    | x1 :: r2 =>
      if x1 = c1 then
        let mm := r2.takeWhile isDig
        let r3 := r2.dropWhile isDig
        if mm.length = 0 ∨ 2 < mm.length then none
        else
          match r3 with
          | x2 :: r4 =>
            if x2 = c2 then
              let yy := r4.takeWhile isDig
              if yy.length = 4 ∧ r4.dropWhile isDig = [] then some (dd, mm, yy) else none
            else none
          | [] => none
      else none
    | [] => none

/-- Spec-side description of the claim's accepted day-month-year shapes:
`D.M.YYYY`, `D/M/YYYY`, or `D-M-YYYY`, the separator used twice. -/
def specDMY (s : JsStr) : Option (JsStr × JsStr × JsStr) :=
  match parseDMYwith '.' '.' s with
  | some r => some r
  | none =>
    match parseDMYwith '/' '/' s with
    | some r => some r
    | none => parseDMYwith '-' '-' s

/-- Well-formedness of an `Entry` clock-time field: absent, empty, or a
five-character `HH:MM` string. -/
def timeOk (o : Option JsStr) : Prop := o = none ∨ o = some [] ∨ (o.getD []).length = 5

/-- Fixture: an entry dated 2024-05-20, outside the ISO week of
2024-05-01. -/
def sampleMayEntry : Entry :=
  { id := str "w", date := str "2024-05-20", project := str "P", minutes := 0 }

/-- Fixture: an entry with an end time but no start time and stale
minutes. -/
def sampleEditEntry : Entry :=
  { id := str "a", date := str "2024-05-01", project := str "P",
    end_ := some (str "12:00"), minutes := 0 }

/-- Fixture: a timer started 2024-05-01T10:00:00Z for project Site A. -/
def sampleTimer : Timer :=
  { id := str "t", project := str "Site A", startTs := 1714557600000 }

/-- Fixture: an import row with a valid date, a non-blank project, and a
supplied minutes value of −5. -/
def sampleNegRow : RawRow :=
  { dato := str "2024-03-05", arbeidssted := str "X", minutter := -5 }

/-- Fixture: a manual-entry submission with a blank project. -/
def sampleBlankProject : ManualData := { project := str " ", minutes := 5 }

/-- Fixture: a manual-entry submission with supplied minutes −10 and no
start/end pair. -/
def sampleNegManual : ManualData := { project := str "X", minutes := -10 }

/-- Fixture: a bare partial patch setting only the start time. -/
def sampleStartPatch : Patch := { start := some (str "10:00") }

/-- Within an era, `civilOfEra` produces in-range components whose
Hinnant-style recomposition recovers the day of era. -/
theorem civilOfEra_spec (doe : Int) (h0 : 0 ≤ doe) (h1 : doe ≤ 146096) :
    1 ≤ (civilOfEra doe).2.1 ∧ (civilOfEra doe).2.1 ≤ 12 ∧
    1 ≤ (civilOfEra doe).2.2 ∧ (civilOfEra doe).2.2 ≤ 31 ∧
    0 ≤ (civilOfEra doe).1 - (14 - (civilOfEra doe).2.1) / 12 ∧
    (civilOfEra doe).1 - (14 - (civilOfEra doe).2.1) / 12 ≤ 399 ∧
    ((civilOfEra doe).1 - (14 - (civilOfEra doe).2.1) / 12) * 365 +
      ((civilOfEra doe).1 - (14 - (civilOfEra doe).2.1) / 12) / 4 -
      ((civilOfEra doe).1 - (14 - (civilOfEra doe).2.1) / 12) / 100 +
      ((153 * (((civilOfEra doe).2.1 + 9) % 12) + 2) / 5 + (civilOfEra doe).2.2 - 1) =
        doe := by
  simp only [civilOfEra]
  have hc0 : 0 ≤ (4 * doe + 3) / 146097 := by omega
  have hc1 : (4 * doe + 3) / 146097 ≤ 3 := by omega
  generalize hC : (4 * doe + 3) / 146097 = c at *
  have hdc0 : 0 ≤ doe - 36524 * c := by omega
  have hdc1 : doe - 36524 * c ≤ 36524 := by omega
  have hwc : 365 * ((4 * (doe - 36524 * c) + 3) / 1461) +
      ((4 * (doe - 36524 * c) + 3) / 1461) / 4 +
      (4 * (doe - 36524 * c) + 3) % 1461 / 4 = doe - 36524 * c := by omega
  have hy0 : 0 ≤ (4 * (doe - 36524 * c) + 3) / 1461 := by omega
  have hy1 : (4 * (doe - 36524 * c) + 3) / 1461 ≤ 99 := by omega
  generalize hY : (4 * (doe - 36524 * c) + 3) / 1461 = yoc at *
  have hd0 : 0 ≤ (4 * (doe - 36524 * c) + 3) % 1461 / 4 := by omega
  have hd1 : (4 * (doe - 36524 * c) + 3) % 1461 / 4 ≤ 365 := by omega
  generalize hD : (4 * (doe - 36524 * c) + 3) % 1461 / 4 = doy at *
  have e4 : (100 * c + yoc) / 4 = 25 * c + yoc / 4 := by
    rw [show (100 : Int) * c + yoc = yoc + 4 * (25 * c) by ring,
      Int.add_mul_ediv_left yoc (25 * c) (by norm_num)]
    ring
  have e100 : (100 * c + yoc) / 100 = c := by
    rw [show (100 : Int) * c + yoc = yoc + 100 * c by ring,
      Int.add_mul_ediv_left yoc c (by norm_num), Int.ediv_eq_zero_of_lt hy0 (by omega)]
    ring
  have hmp0 : 0 ≤ (5 * doy + 2) / 153 := by omega
  have hmp1 : (5 * doy + 2) / 153 ≤ 11 := by omega
  generalize hMP : (5 * doy + 2) / 153 = mp at *
  interval_cases mp <;> (norm_num; omega)

/-- The two calendar conversions are mutually consistent:
`daysFromCivil` is a left inverse of `civilFromDays` on all of `ℤ`. -/
theorem daysFromCivil_civilFromDays (z : Int) :
    daysFromCivil (civilFromDays z).1 (civilFromDays z).2.1 (civilFromDays z).2.2 = z := by
  have h0 : 0 ≤ z + 719468 - (z + 719468) / 146097 * 146097 := by omega
  have h1 : z + 719468 - (z + 719468) / 146097 * 146097 ≤ 146096 := by omega
  obtain ⟨a1, a2, a3, a4, a5, a6, a7⟩ := civilOfEra_spec _ h0 h1
  simp only [civilFromDays, daysFromCivil] at *
  generalize hq : (z + 719468) / 146097 = q at *
  generalize hP : civilOfEra (z + 719468 - q * 146097) = P at *
  obtain ⟨Y, M, D⟩ := P
  dsimp only at *
  have hk : (Y + q * 400 - (14 - M) / 12) / 400 = q := by
    rw [show Y + q * 400 - (14 - M) / 12 = (Y - (14 - M) / 12) + 400 * q by ring,
      Int.add_mul_ediv_left _ q (by norm_num), Int.ediv_eq_zero_of_lt a5 (by omega)]
    ring
  rw [hk, show Y + q * 400 - (14 - M) / 12 - q * 400 = Y - (14 - M) / 12 from by ring]
  omega

/-- `daysFromCivil` is affine in the day argument (how `setDate` moves a
date by a day-of-month delta, including over- and underflow). -/
theorem daysFromCivil_add (y m a b : Int) :
    daysFromCivil y m a + b = daysFromCivil y m (a + b) := by
  simp only [daysFromCivil]
  omega

/-- `jsLtB` is irreflexive. -/
theorem jsLtB_self (s : JsStr) : jsLtB s s = false := by
  induction s with
  | nil => rfl
  | cons a as ih => simp [jsLtB, ih]

/-- `jsLeB` is reflexive. -/
theorem jsLeB_refl (s : JsStr) : jsLeB s s = true := by
  simp [jsLeB, jsLtB_self]

/-- Lexicographic antisymmetry: mutually `<=` strings are equal. -/
theorem jsLeB_antisymm (a b : JsStr) (h1 : jsLeB a b = true) (h2 : jsLeB b a = true) :
    a = b := by
  simp only [jsLeB, Bool.not_eq_true'] at h1 h2
  induction a generalizing b with
  | nil =>
    cases b with
    | nil => rfl
    | cons c cs => simp [jsLtB] at h2
  | cons x xs ih =>
    cases b with
    | nil => simp [jsLtB] at h1
    | cons c cs =>
      simp only [jsLtB] at h1 h2
      by_cases hxc : x = c
      · subst hxc
        simp only [if_pos rfl] at h1 h2
        rw [ih cs h1 h2]
      · rw [if_neg hxc, decide_eq_false_iff_not] at h2
        rw [if_neg (fun h => hxc h.symm), decide_eq_false_iff_not] at h1
        rcases lt_trichotomy x c with hlt | heq | hgt
        · exact absurd hlt h2
        · exact absurd heq hxc
        · exact absurd hgt h1

/-- Re-rendering a digit's value gives back the digit. -/
theorem digitChar_digitVal (c : Char) (h : isDig c = true) : digitChar (digitVal c) = c := by
  have hb : 48 ≤ c.toNat ∧ c.toNat ≤ 57 := by simpa [isDig] using h
  unfold digitChar digitVal
  rw [show 48 + (c.toNat - 48) = c.toNat by omega]
  exact Char.ofNat_toNat c

/-- Digit values are below 10. -/
theorem digitVal_lt (c : Char) (h : isDig c = true) : digitVal c < 10 := by
  have hb : 48 ≤ c.toNat ∧ c.toNat ≤ 57 := by simpa [isDig] using h
  unfold digitVal
  omega

/-- `pad2` inverts `natOfDigits` on two-digit strings. -/
theorem pad2_natOfDigits (a b : Char) (ha : isDig a = true) (hb : isDig b = true) :
    pad2 (natOfDigits [a, b]) = [a, b] := by
  have h1 := digitVal_lt a ha
  have h2 := digitVal_lt b hb
  have hv : natOfDigits [a, b] = 10 * digitVal a + digitVal b := by
    simp [natOfDigits, List.foldl]
  rw [hv]
  unfold pad2
  rw [show (10 * digitVal a + digitVal b) / 10 % 10 = digitVal a by omega,
    show (10 * digitVal a + digitVal b) % 10 = digitVal b by omega,
    digitChar_digitVal a ha, digitChar_digitVal b hb]

/-- `pad4` inverts `natOfDigits` on four-digit strings. -/
theorem pad4_natOfDigits (a b c d : Char) (ha : isDig a = true) (hb : isDig b = true)
    (hc : isDig c = true) (hd : isDig d = true) :
    pad4 (natOfDigits [a, b, c, d]) = [a, b, c, d] := by
  have h1 := digitVal_lt a ha
  have h2 := digitVal_lt b hb
  have h3 := digitVal_lt c hc
  have h4 := digitVal_lt d hd
  have hv : natOfDigits [a, b, c, d] =
      1000 * digitVal a + 100 * digitVal b + 10 * digitVal c + digitVal d := by
    simp [natOfDigits, List.foldl]
    ring
  rw [hv]
  unfold pad4
  rw [show (1000 * digitVal a + 100 * digitVal b + 10 * digitVal c + digitVal d) / 1000 % 10 =
      digitVal a by omega,
    show (1000 * digitVal a + 100 * digitVal b + 10 * digitVal c + digitVal d) / 100 % 10 =
      digitVal b by omega,
    show (1000 * digitVal a + 100 * digitVal b + 10 * digitVal c + digitVal d) / 10 % 10 =
      digitVal c by omega,
    show (1000 * digitVal a + 100 * digitVal b + 10 * digitVal c + digitVal d) % 10 =
      digitVal d by omega,
    digitChar_digitVal a ha, digitChar_digitVal b hb, digitChar_digitVal c hc,
    digitChar_digitVal d hd]

/-- A successfully parsed `YYYY-MM-DD` string re-renders to itself. -/
theorem parseISO_inv (s : JsStr) (y m d : Int) (h : parseISO s = some (y, m, d)) :
    formatCivil y m d = s := by
  unfold parseISO at h
  split at h
  case h_2 => exact absurd h (by simp)
  case h_1 y1 y2 y3 y4 s1 m1 m2 s2 d1 d2 =>
    split at h
    case isFalse => exact absurd h (by simp)
    case isTrue hguard =>
      simp only at h
      split at h
      case isFalse => exact absurd h (by simp)
      case isTrue hrange =>
        simp only [Bool.and_eq_true, decide_eq_true_eq] at hguard
        obtain ⟨⟨⟨⟨⟨⟨⟨⟨⟨hy1, hy2⟩, hy3⟩, hy4⟩, hs1⟩, hm1⟩, hm2⟩, hs2⟩, hd1⟩, hd2⟩ := hguard
        obtain ⟨hy, hm, hd⟩ := by simpa using h
        subst hy hm hd hs1 hs2
        simp only [formatCivil, Int.toNat_ofNat]
        rw [pad4_natOfDigits y1 y2 y3 y4 hy1 hy2 hy3 hy4,
          pad2_natOfDigits m1 m2 hm1 hm2, pad2_natOfDigits d1 d2 hd1 hd2]
        rfl

/-- C10: invoking the stop operation when no timer is running is a no-op:
the entry list, the project list, and the (absent) running timer are all
unchanged. -/
theorem stopTimer_noop (st : AppState) (nowMs : Nat) (newId : JsStr) (uid : Option JsStr)
    (h : st.running = none) : stopTimer st nowMs newId uid = st := by
  unfold stopTimer
  rw [h]

/-- Witness for `stopTimer_noop` at a concrete idle state. -/
theorem stopTimer_noop_witness :
    stopTimer ⟨[sampleMayEntry], [str "P"], none⟩ 1714557600000 (str "n") none =
      ⟨[sampleMayEntry], [str "P"], none⟩ :=
  stopTimer_noop _ _ _ _ rfl

/-- C2 (amended): stopping a running timer produces exactly one new entry,
prepended to the entry list (newest first), with the running timer cleared
and the project list untouched; the entry is dated today, carries the
formatted `HH:MM` clock times of the start timestamp and of the stop
instant, and its minutes are the elapsed milliseconds over 60000, rounded
half-up and floored to a minimum of 1 — in particular an elapsed time of
125 seconds yields 2 minutes. -/
theorem stopTimer_spec (st : AppState) (r : Timer) (nowMs : Nat) (newId : JsStr)
    (uid : Option JsStr) (hrun : st.running = some r) (_hle : r.startTs ≤ nowMs) :
    stopTimer st nowMs newId uid =
      { st with entries := mkStopEntry r nowMs newId uid :: st.entries, running := none } ∧
    (mkStopEntry r nowMs newId uid).minutes =
      ((Nat.max 1 (jsRoundDiv (nowMs - r.startTs) 60000) : Nat) : Int) ∧
    (mkStopEntry r nowMs newId uid).date = todayISO nowMs ∧
    (mkStopEntry r nowMs newId uid).start = some (formatTime r.startTs) ∧
    (mkStopEntry r nowMs newId uid).end_ = some (formatTime nowMs) ∧
    (stopTimer st nowMs newId uid).projects = st.projects ∧
    (nowMs - r.startTs = 125000 → (mkStopEntry r nowMs newId uid).minutes = 2) := by
  unfold stopTimer
  rw [hrun]
  refine ⟨rfl, rfl, rfl, rfl, rfl, rfl, fun h125 => ?_⟩
  simp only [mkStopEntry, h125]
  rfl

/-- Witness for `stopTimer_spec`: stopping 125 seconds after the start
records 2 minutes. -/
theorem stopTimer_spec_witness :
    (mkStopEntry sampleTimer 1714557725000 (str "new") none).minutes = 2 :=
  (stopTimer_spec ⟨[], [], some sampleTimer⟩ sampleTimer 1714557725000 (str "new") none
    rfl (by decide)).2.2.2.2.2.2 (by decide)

/-- C2 counterexample to the claim as stated: with a non-empty entry list
the new entry is not appended at the end of the list — it is put at the
head. -/
theorem stopTimer_counterexample :
    (stopTimer ⟨[sampleMayEntry], [str "P"], some sampleTimer⟩ 1714557725000
        (str "new") none).entries ≠
      [sampleMayEntry] ++ [mkStopEntry sampleTimer 1714557725000 (str "new") none] ∧
    (stopTimer ⟨[sampleMayEntry], [str "P"], some sampleTimer⟩ 1714557725000
        (str "new") none).entries =
      mkStopEntry sampleTimer 1714557725000 (str "new") none :: [sampleMayEntry] := by
  constructor
  · intro h
    exact absurd (congrArg (fun l => List.getD l 0 sampleMayEntry) h) (by decide)
  · rfl

/-- C8: converting an `Entry` to a database row and mapping the row back
preserves `id`, `date`, `project`, `minutes` (and `createdAt`) exactly,
and normalizes the optional fields to empty strings: absent and empty
`activity`/`notes`/`start`/`end` all come back as present empty strings,
while an `HH:MM` clock time survives the `HH:MM:SS` extension and the
`slice(0, 5)` truncation. -/
theorem entry_row_roundtrip (e : Entry) (uid : JsStr)
    (hs : timeOk e.start) (he : timeOk e.end_) :
    (rowToEntry (toDbRow e uid)).id = e.id ∧
    (rowToEntry (toDbRow e uid)).date = e.date ∧
    (rowToEntry (toDbRow e uid)).project = e.project ∧
    (rowToEntry (toDbRow e uid)).minutes = e.minutes ∧
    (rowToEntry (toDbRow e uid)).createdAt = e.createdAt ∧
    (rowToEntry (toDbRow e uid)).activity = some (e.activity.getD []) ∧
    (rowToEntry (toDbRow e uid)).notes = some (e.notes.getD []) ∧
    (rowToEntry (toDbRow e uid)).start = some (e.start.getD []) ∧
    (rowToEntry (toDbRow e uid)).end_ = some (e.end_.getD []) ∧
    (rowToEntry (toDbRow e uid)).userId = some uid := by
  refine ⟨rfl, rfl, rfl, rfl, rfl, ?_, ?_, ?_, ?_, rfl⟩
  · simp only [rowToEntry, toDbRow, jsOrNull]
    cases e.activity with
    | none => rfl
    | some a =>
      by_cases ha : a = []
      · subst ha
        rfl
      · simp [ha]
  · simp only [rowToEntry, toDbRow, jsOrNull]
    cases e.notes with
    | none => rfl
    | some a =>
      by_cases ha : a = []
      · subst ha
        rfl
      · simp [ha]
  · simp only [rowToEntry, toDbRow, jsOrNull]
    rcases hs with h | h | h
    · rw [h]
      rfl
    · rw [h]
      rfl
    · cases hst : e.start with
      | none => rfl
      | some s =>
        rw [hst] at h
        simp only [Option.getD_some] at h
        have hne : ¬ s = [] := by
          intro hc
          rw [hc] at h
          simp at h
        simp only [if_neg hne]
        show some (List.take 5 (s ++ str ":00")) = some s
        rw [List.take_left' h]
  · simp only [rowToEntry, toDbRow, jsOrNull]
    rcases he with h | h | h
    · rw [h]
      rfl
    · rw [h]
      rfl
    · cases hst : e.end_ with
      | none => rfl
      | some s =>
        rw [hst] at h
        simp only [Option.getD_some] at h
        have hne : ¬ s = [] := by
          intro hc
          rw [hc] at h
          simp at h
        simp only [if_neg hne]
        show some (List.take 5 (s ++ str ":00")) = some s
        rw [List.take_left' h]

/-- Witness for `entry_row_roundtrip` at a concrete entry with a clock
time, an empty optional field, and an absent optional field. -/
theorem entry_row_roundtrip_witness :
    (rowToEntry (toDbRow sampleEditEntry (str "u"))).end_ =
      some (sampleEditEntry.end_.getD []) :=
  (entry_row_roundtrip sampleEditEntry (str "u") (by unfold timeOk; decide)
    (by unfold timeOk; decide)).2.2.2.2.2.2.2.2.1

/-- C5 (amended): an import row is accepted (mapped to an entry rather
than dropped) if and only if the normalized date is non-empty, the
trimmed project is non-empty, and the effective minutes value — the
supplied number or, when that is zero/absent and both normalized times
are non-empty, `diffMinutes` of those times — is non-zero.  (Non-zero,
not positive: negative values pass the truthiness test.) -/
theorem toEntry_accepts_iff (r : RawRow) :
    (toEntry r).isSome = true ↔
      (normalizeDate r.dato ≠ [] ∧ jsTrim r.arbeidssted ≠ [] ∧ importMinutes r ≠ 0) := by
  simp only [toEntry]
  split
  case isTrue h =>
    simp only [Option.isSome_none, Bool.false_eq_true, false_iff]
    tauto
  case isFalse h =>
    simp only [Option.isSome_some, true_iff]
    tauto

/-- C5 counterexample to the claim as stated: a row with a valid date, a
non-blank project, and supplied minutes −5 is accepted, although its
effective minutes are not positive. -/
theorem toEntry_counterexample :
    (toEntry sampleNegRow).isSome = true ∧ ¬ 0 < importMinutes sampleNegRow := by
  constructor
  · decide
  · decide

/-- C9: `normalizeTime` performs no range validation: any trimmed input
whose shape is one-or-two digits, an optional colon, and exactly two
digits is zero-padded and returned with its digit groups unchecked, so
`"9999"` yields `"99:99"`, which is not a valid 24-hour clock time. -/
theorem normalizeTime_spec :
    (∀ (v hh mm : JsStr), v ≠ [] → matchHM (jsTrim v) = some (hh, mm) →
      normalizeTime v = padStart2 hh ++ ':' :: padStart2 mm) ∧
    normalizeTime (str "9999") = str "99:99" ∧
    isValidClock (str "99:99") = false := by
  refine ⟨?_, by decide, by decide⟩
  intro v hh mm hv hmatch
  unfold normalizeTime
  rw [if_neg hv, hmatch]

/-- Witness for `normalizeTime_spec`: the compact input `"930"` is padded
to `"09:30"`. -/
theorem normalizeTime_spec_witness :
    normalizeTime (str "930") = padStart2 (str "9") ++ ':' :: padStart2 (str "30") :=
  normalizeTime_spec.1 (str "930") (str "9") (str "30") (by decide) (by decide)

/-- C7 (amended): `addManualEntry` aborts with a synchronous message and
leaves the state unchanged exactly when the trimmed project is blank, or
the supplied minutes are zero and no positive duration can be derived
(either no start/end pair is present, or their difference is
non-positive).  A directly supplied non-zero minutes value — including a
negative one — is accepted. -/
theorem addManualEntry_spec (st : AppState) (d : ManualData) (newId : JsStr) (today : JsStr)
    (nowMs : Nat) (uid : Option JsStr) :
    ((addManualEntry st d newId today nowMs uid).2.isSome = true ↔
      (jsTrim d.project = [] ∨
        (d.minutes = 0 ∧
          (truthy (d.start.map jsTrim) = true ∧ truthy (d.end_.map jsTrim) = true →
            diffMinutes ((d.start.map jsTrim).getD []) ((d.end_.map jsTrim).getD []) ≤ 0)))) ∧
    ((addManualEntry st d newId today nowMs uid).2.isSome = true →
      (addManualEntry st d newId today nowMs uid).1 = st) := by
  constructor
  · simp only [addManualEntry]
    split_ifs with h1 h2 h3 h4 <;>
      simp only [Option.isSome_some, Option.isSome_none, Bool.false_eq_true, true_iff,
        false_iff] <;>
      tauto
  · simp only [addManualEntry]
    split_ifs <;> simp

/-- Witness for `addManualEntry_spec`: a blank-project submission leaves
the state unchanged. -/
theorem addManualEntry_spec_witness :
    (addManualEntry ⟨[], [], none⟩ sampleBlankProject (str "n")
        (str "2024-05-01") 0 none).1 = ⟨[], [], none⟩ :=
  (addManualEntry_spec ⟨[], [], none⟩ sampleBlankProject (str "n")
    (str "2024-05-01") 0 none).2 (by decide)

/-- C7 counterexample to the claim as stated: a submission with a blank
start/end pair and a directly supplied duration of −10 (non-positive) is
not rejected — no alert is raised and the entry list changes. -/
theorem addManualEntry_counterexample :
    (addManualEntry ⟨[], [], none⟩ sampleNegManual (str "n")
        (str "2024-05-01") 0 none).2 = none ∧
    (addManualEntry ⟨[], [], none⟩ sampleNegManual (str "n")
        (str "2024-05-01") 0 none).1.entries ≠ [] := by
  constructor
  · decide
  · decide

/-- C1 (amended): `updateEntry` applies its patch verbatim; the
recomputation of `minutes` lives in the table's edit handlers.  For every
entry list with distinct ids and every single-field edit issued from the
table: if the edit touched `start` or `end` and the resulting entry has
both fields non-empty, its `minutes` equal `diffMinutes` of its own
`start` and `end`; and an edit of `minutes` alone changes neither `start`
nor `end` of any entry. -/
theorem tableEdit_minutes_invariant (entries : List Entry) (id : JsStr) (ed : Edit)
    (huniq : (entries.map Entry.id).Nodup) :
    (∀ r ∈ tableEdit entries id ed, r.id = id → touchesTime ed = true →
      truthy r.start = true → truthy r.end_ = true →
      r.minutes = diffMinutes (r.start.getD []) (r.end_.getD [])) ∧
    (∀ n : Int,
      (tableEdit entries id (Edit.minutes n)).map Entry.start = entries.map Entry.start ∧
      (tableEdit entries id (Edit.minutes n)).map Entry.end_ = entries.map Entry.end_) := by
  constructor
  · intro r hr hid htouch hs he
    unfold tableEdit at hr
    cases hfind : entries.find? (fun e => e.id = id) with
    | none =>
      rw [hfind] at hr
      have := (List.find?_eq_none.mp hfind) r hr
      simp [hid] at this
    | some e0 =>
      rw [hfind] at hr
      have he0mem : e0 ∈ entries := List.mem_of_find?_eq_some hfind
      have he0id : e0.id = id := by simpa using List.find?_some hfind
      unfold updateEntry at hr
      obtain ⟨a, hamem, ha⟩ := List.mem_map.mp hr
      by_cases haid : a.id = id
      · rw [if_pos haid] at ha
        have hae0 : a = e0 := List.inj_on_of_nodup_map huniq hamem he0mem
          (haid.trans he0id.symm)
        subst hae0
        subst ha
        cases ed with
        | start v =>
          simp only [editPatch, applyPatch, Option.getD_some] at hs he ⊢
          have hv : v ≠ [] := by
            simpa [truthy] using hs
          have hend : truthy a.end_ = true := by
            simpa [applyPatch] using he
          have hc : v ≠ [] ∧ truthy a.end_ = true := ⟨hv, hend⟩
          rw [if_pos hc]
        | end_ v =>
          simp only [editPatch, applyPatch, Option.getD_some] at hs he ⊢
          have hv : v ≠ [] := by
            simpa [truthy] using he
          have hstart : truthy a.start = true := by
            simpa [applyPatch] using hs
          have hc : truthy a.start = true ∧ v ≠ [] := ⟨hstart, hv⟩
          rw [if_pos hc]
        | date v => simp [touchesTime] at htouch
        | project v => simp [touchesTime] at htouch
        | activity v => simp [touchesTime] at htouch
        | notes v => simp [touchesTime] at htouch
        | minutes n => simp [touchesTime] at htouch
      · rw [if_neg haid] at ha
        subst ha
        exact absurd hid haid
  · intro n
    unfold tableEdit
    cases hfind : entries.find? (fun e => e.id = id) with
    | none => exact ⟨rfl, rfl⟩
    | some e0 =>
      unfold updateEntry
      constructor
      · rw [List.map_map]
        refine List.map_congr_left fun a _ => ?_
        by_cases haid : a.id = id
        · simp [haid, editPatch, applyPatch]
        · simp [haid]
      · rw [List.map_map]
        refine List.map_congr_left fun a _ => ?_
        by_cases haid : a.id = id
        · simp [haid, editPatch, applyPatch]
        · simp [haid]

/-- Witness for `tableEdit_minutes_invariant`: editing the start time of
the fixture entry (which has an end time) recomputes its minutes as the
difference of the resulting clock times. -/
theorem tableEdit_minutes_invariant_witness :
    (applyPatch sampleEditEntry (editPatch sampleEditEntry (Edit.start (str "10:00")))).minutes =
      diffMinutes
        ((applyPatch sampleEditEntry
          (editPatch sampleEditEntry (Edit.start (str "10:00")))).start.getD [])
        ((applyPatch sampleEditEntry
          (editPatch sampleEditEntry (Edit.start (str "10:00")))).end_.getD []) :=
  (tableEdit_minutes_invariant [sampleEditEntry] (str "a") (Edit.start (str "10:00"))
      (by decide)).1
    (applyPatch sampleEditEntry (editPatch sampleEditEntry (Edit.start (str "10:00"))))
    (by decide) (by decide) (by decide) (by decide) (by decide)

/-- C1 counterexample to the claim as stated: applying the bare partial
patch `{ start: "10:00" }` through `updateEntry` to an entry whose end is
`"12:00"` leaves the stale `minutes` of 0 in place, although the patch
touches `start` and the resulting entry has both clock fields non-empty
(`diffMinutes` of them is 120). -/
theorem updateEntry_counterexample :
    sampleStartPatch.start.isSome = true ∧
    updateEntry [sampleEditEntry] (str "a") sampleStartPatch =
      [applyPatch sampleEditEntry sampleStartPatch] ∧
    (applyPatch sampleEditEntry sampleStartPatch).id = str "a" ∧
    truthy (applyPatch sampleEditEntry sampleStartPatch).start = true ∧
    truthy (applyPatch sampleEditEntry sampleStartPatch).end_ = true ∧
    (applyPatch sampleEditEntry sampleStartPatch).minutes ≠
      diffMinutes ((applyPatch sampleEditEntry sampleStartPatch).start.getD [])
        ((applyPatch sampleEditEntry sampleStartPatch).end_.getD []) := by
  refine ⟨by decide, by decide, by decide, by decide, by decide, by decide⟩

/-- Mutual lexicographic comparison characterises equality. -/
theorem jsLeB_and_eq (s x : JsStr) : (jsLeB s x && jsLeB x s) = decide (x = s) := by
  by_cases h : x = s
  · subst h
    simp [jsLeB_refl]
  · rw [decide_eq_false h]
    cases h1 : jsLeB s x <;> cases h2 : jsLeB x s <;> simp_all
    exact h (jsLeB_antisymm x s h2 h1)

/-- C3 (amended): `filterEntries` with view `all` returns the list
unchanged; with view `day` it returns exactly the entries whose date
equals the reference date; with view `week` it returns exactly the
entries whose date lies, by zero-padded ISO string comparison, in the
inclusive window from the Monday of the reference week to the day
obtained by setting the reference date's day-of-month to that Monday's
day-of-month plus six — a window that ends exactly at Monday + 6 days
whenever the Monday falls in the reference date's own month (but extends
further when the Monday falls in the previous month). -/
theorem filterEntries_spec (entries : List Entry) (refISO : JsStr) (y m d : Int)
    (h : parseISO refISO = some (y, m, d)) :
    filterEntries entries View.all refISO = entries ∧
    filterEntries entries View.day refISO = entries.filter (fun e => e.date = refISO) ∧
    filterEntries entries View.week refISO = entries.filter
      (fun e => jsLeB (toISO (weekStart y m d)) e.date &&
        jsLeB e.date (toISO (weekEnd y m d))) ∧
    weekStart y m d = mondayOf (daysFromCivil y m d) ∧
    ((civilFromDays (weekStart y m d)).1 = y ∧ (civilFromDays (weekStart y m d)).2.1 = m →
      weekEnd y m d = weekStart y m d + 6) := by
  refine ⟨rfl, ?_, ?_, ?_, ?_⟩
  · simp only [filterEntries, h]
    rw [parseISO_inv refISO y m d h]
    exact List.filter_congr fun e _ => jsLeB_and_eq refISO e.date
  · simp only [filterEntries, h]
  · have e1 := daysFromCivil_add y m 1
      (d - (jsGetDay (daysFromCivil y m d) + 6) % 7 - 1)
    have e2 := daysFromCivil_add y m d (-((jsGetDay (daysFromCivil y m d) + 6) % 7))
    rw [show (1 : Int) + (d - (jsGetDay (daysFromCivil y m d) + 6) % 7 - 1) =
      d + -((jsGetDay (daysFromCivil y m d) + 6) % 7) by ring] at e1
    unfold weekStart mondayOf
    omega
  · rintro ⟨hy, hm⟩
    have hrt := daysFromCivil_civilFromDays (weekStart y m d)
    rw [hy, hm] at hrt
    have e3 := daysFromCivil_add y m 1 ((civilFromDays (weekStart y m d)).2.2 + 6 - 1)
    have e4 := daysFromCivil_add y m ((civilFromDays (weekStart y m d)).2.2) 6
    rw [show (1 : Int) + ((civilFromDays (weekStart y m d)).2.2 + 6 - 1) =
      (civilFromDays (weekStart y m d)).2.2 + 6 by ring] at e3
    unfold weekEnd
    omega

/-- Witness for `filterEntries_spec`: the day view on 2024-05-01 keeps
exactly the entries dated 2024-05-01 (here: none of the fixture list). -/
theorem filterEntries_spec_witness :
    filterEntries [sampleMayEntry] View.day (str "2024-05-01") =
      [sampleMayEntry].filter (fun e => e.date = str "2024-05-01") :=
  (filterEntries_spec [sampleMayEntry] (str "2024-05-01") 2024 5 1 (by decide)).2.1

/-- C3 counterexample to the claim as stated: with reference date
2024-05-01 (whose Monday, 2024-04-29, lies in April) the code's week
window runs through 2024-06-04, so an entry dated 2024-05-20 — outside
the Monday-start 7-day window 2024-04-29..2024-05-05 — is returned. -/
theorem filterEntries_counterexample :
    parseISO (str "2024-05-01") = some (2024, 5, 1) ∧
    filterEntries [sampleMayEntry] View.week (str "2024-05-01") = [sampleMayEntry] ∧
    [sampleMayEntry].filter (fun e => specWeekWindow 2024 5 1 e.date) = [] := by
  refine ⟨by decide, by decide, by decide⟩

/-- Dropping a prefix by a predicate no element satisfies is the
identity. -/
theorem dropWhile_of_all (p : Char → Bool) (s : JsStr) (h : ∀ c ∈ s, p c = false) :
    s.dropWhile p = s := by
  cases s with
  | nil => rfl
  | cons a as =>
    rw [List.dropWhile_cons, if_neg]
    simp [h a (List.mem_cons_self a as)]

/-- Trimming a string with no whitespace is the identity. -/
theorem jsTrim_of_all (s : JsStr) (h : ∀ c ∈ s, jsWhite c = false) : jsTrim s = s := by
  unfold jsTrim
  rw [dropWhile_of_all _ _ h,
    dropWhile_of_all _ _ (fun c hc => h c (List.mem_reverse.mp hc)),
    List.reverse_reverse]

/-- Digits are not whitespace. -/
theorem isDig_not_white (c : Char) (h : isDig c = true) : jsWhite c = false := by
  simp only [isDig, Bool.and_eq_true, decide_eq_true_eq] at h
  simp only [jsWhite, Bool.or_eq_false_iff, decide_eq_false_iff_not]
  omega

/-- A string matching the `YYYY-MM-DD` shape cannot match the
day-month-year shape (its leading digit run has length 4). -/
theorem matchYMD_matchDMY_none (s : JsStr) (h : matchYMD s = true) : matchDMY s = none := by
  unfold matchYMD at h
  split at h
  case h_2 => exact absurd h (by simp)
  case h_1 y1 y2 y3 y4 s1 m1 m2 s2 d1 d2 =>
    simp only [Bool.and_eq_true, decide_eq_true_eq] at h
    obtain ⟨⟨⟨⟨⟨⟨⟨⟨⟨hy1, hy2⟩, hy3⟩, hy4⟩, hs1⟩, hm1⟩, hm2⟩, hs2⟩, hd1⟩, hd2⟩ := h
    subst hs1 hs2
    have hdash : isDig '-' = false := by decide
    simp [matchDMY, List.takeWhile_cons, hy1, hy2, hy3, hy4, hdash]

/-- Non-empty `YYYY-MM-DD` inputs pass through `normalizeDate`
untouched. -/
theorem normalizeDate_of_matchYMD (s : JsStr) (hne : s ≠ []) (htrim : jsTrim s = s)
    (h : matchYMD s = true) : normalizeDate s = s := by
  unfold normalizeDate
  rw [if_neg hne, htrim, if_pos h]

/-- C6 (amended): `normalizeDate` trims its input and then returns it
unchanged when it matches `YYYY-MM-DD`; when the trimmed input matches
`D sep M sep YYYY` with each separator independently a dot, slash, or
dash (the separators may differ), it is reformatted to zero-padded
`YYYY-MM-DD`; every other input yields the empty string. -/
theorem normalizeDate_spec :
    (∀ v : JsStr, matchYMD v = true → normalizeDate v = v) ∧
    (∀ (v dd mm yyyy : JsStr), matchDMY (jsTrim v) = some (dd, mm, yyyy) → v ≠ [] →
      normalizeDate v = yyyy ++ '-' :: (padStart2 mm ++ '-' :: padStart2 dd)) ∧
    (∀ v : JsStr, matchYMD (jsTrim v) = false → matchDMY (jsTrim v) = none →
      normalizeDate v = []) := by
  refine ⟨?_, ?_, ?_⟩
  · intro v h
    have hshape := h
    unfold matchYMD at hshape
    split at hshape
    case h_2 => exact absurd hshape (by simp)
    case h_1 y1 y2 y3 y4 s1 m1 m2 s2 d1 d2 =>
      simp only [Bool.and_eq_true, decide_eq_true_eq] at hshape
      obtain ⟨⟨⟨⟨⟨⟨⟨⟨⟨hy1, hy2⟩, hy3⟩, hy4⟩, hs1⟩, hm1⟩, hm2⟩, hs2⟩, hd1⟩, hd2⟩ := hshape
      subst hs1 hs2
      refine normalizeDate_of_matchYMD _ (by simp) (jsTrim_of_all _ ?_) h
      intro c hc
      simp only [List.mem_cons, List.not_mem_nil, or_false] at hc
      rcases hc with rfl | rfl | rfl | rfl | rfl | rfl | rfl | rfl | rfl | rfl
      · exact isDig_not_white _ hy1
      · exact isDig_not_white _ hy2
      · exact isDig_not_white _ hy3
      · exact isDig_not_white _ hy4
      · decide
      · exact isDig_not_white _ hm1
      · exact isDig_not_white _ hm2
      · decide
      · exact isDig_not_white _ hd1
      · exact isDig_not_white _ hd2
  · intro v dd mm yyyy h hv
    have hn : matchYMD (jsTrim v) = false := by
      cases hb : matchYMD (jsTrim v) with
      | false => rfl
      | true => exact absurd h (by simp [matchYMD_matchDMY_none _ hb])
    unfold normalizeDate
    rw [if_neg hv, if_neg (by simp [hn]), h]
  · intro v h1 h2
    unfold normalizeDate
    by_cases hv : v = []
    · simp [hv]
    · rw [if_neg hv, if_neg (by simp [h1]), h2]

/-- Witness for `normalizeDate_spec`: `"05.03.2024"` reformats to
`"2024-03-05"`. -/
theorem normalizeDate_spec_witness :
    normalizeDate (str "05.03.2024") =
      str "2024" ++ '-' :: (padStart2 (str "03") ++ '-' :: padStart2 (str "05")) :=
  normalizeDate_spec.2.1 (str "05.03.2024") (str "05") (str "03") (str "2024")
    (by decide) (by decide)

/-- C6 counterexample to the claim as stated: the input `"05.03-2024"`
matches none of the claim's shapes — it is not `YYYY-MM-DD` and its two
separators differ — yet `normalizeDate` reformats it instead of
returning the empty string. -/
theorem normalizeDate_counterexample :
    normalizeDate (str "05.03-2024") = str "2024-03-05" ∧
    matchYMD (str "05.03-2024") = false ∧
    specDMY (str "05.03-2024") = none := by
  refine ⟨by decide, by decide, by decide⟩

/-- C4: on every valid `YYYY-MM-DD` date, `getISOWeek` returns the
ISO-8601 week-year and week number: the year of the date's Thursday, and
the count of Monday-start weeks from the week containing January 4 of
that year — so near year boundaries the returned year may differ from
the calendar year.  (The validity hypotheses delimit the model's regime:
a four-digit year and an in-range month and day, as produced by the
date inputs; they are not otherwise consumed by the arithmetic.) -/
theorem getISOWeek_iso (y m d : Int) (_hy1 : 1000 ≤ y) (_hy2 : y ≤ 9999)
    (_hm1 : 1 ≤ m) (_hm2 : m ≤ 12) (_hd1 : 1 ≤ d) (_hd2 : d ≤ daysInMonth y m) :
    getISOWeek y m d = isoWeekSpec (daysFromCivil y m d) := by
  simp only [getISOWeek, isoWeekSpec]
  have e1 := daysFromCivil_add y m 1 (d - (jsGetDay (daysFromCivil y m d) + 6) % 7 + 3 - 1)
  have e2 := daysFromCivil_add y m d (3 - (jsGetDay (daysFromCivil y m d) + 6) % 7)
  rw [show (1 : Int) + (d - (jsGetDay (daysFromCivil y m d) + 6) % 7 + 3 - 1) =
    d + (3 - (jsGetDay (daysFromCivil y m d) + 6) % 7) by ring] at e1
  have htarget : daysFromCivil y m 1 + (d - (jsGetDay (daysFromCivil y m d) + 6) % 7 + 3) - 1 =
      mondayOf (daysFromCivil y m d) + 3 := by
    unfold mondayOf
    omega
  rw [htarget]
  generalize hty : (civilFromDays (mondayOf (daysFromCivil y m d) + 3)).1 = ty
  have e3 := daysFromCivil_add ty 1 1 (4 - (jsGetDay (daysFromCivil ty 1 4) + 6) % 7 + 3 - 1)
  have e4 := daysFromCivil_add ty 1 4 (3 - (jsGetDay (daysFromCivil ty 1 4) + 6) % 7)
  rw [show (1 : Int) + (4 - (jsGetDay (daysFromCivil ty 1 4) + 6) % 7 + 3 - 1) =
    4 + (3 - (jsGetDay (daysFromCivil ty 1 4) + 6) % 7) by ring] at e3
  have hft : daysFromCivil ty 1 1 + (4 - (jsGetDay (daysFromCivil ty 1 4) + 6) % 7 + 3) - 1 =
      mondayOf (daysFromCivil ty 1 4) + 3 := by
    unfold mondayOf
    omega
  rw [hft]
  simp only [Prod.mk.injEq]
  refine ⟨trivial, ?_⟩
  unfold mondayOf jsGetDay
  omega

/-- Witness for `getISOWeek_iso`: 2021-01-01 reports ISO week-year 2020,
week 53. -/
theorem getISOWeek_iso_witness :
    getISOWeek 2021 1 1 = isoWeekSpec (daysFromCivil 2021 1 1) ∧
    getISOWeek 2021 1 1 = (2020, 53) :=
  ⟨getISOWeek_iso 2021 1 1 (by decide) (by decide) (by decide) (by decide) (by decide)
    (by decide), by decide⟩

end Timereg
